import Mathlib

/-!
# Verification of the `hostfile` crate's parser (`src/lib.rs`)

Shallow embedding of the library in Lean 4. Strings are modelled as
`List Char`; the filesystem interaction of `parse_file` is modelled by an
explicit record of the facts the code queries (`exists`, `is_file`,
`open` success, and the file's lines).

The crate calls `str::parse::<IpAddr>` from the Rust standard library, so
the embedding includes Rust's `core::net::parser` for `IpAddr` (the
deterministic backtracking parser: `read_ipv4_addr`, `read_ipv6_addr`,
`read_number`, with the end-of-input check of `parse_with`).
-/

deriving instance DecidableEq for Except

namespace Hostfile

/-- Shorthand: the character list of a string literal. -/
def str (s : String) : List Char := s.data

/-- Rust `char::to_digit(radix)`: `0-9`, `a-z`, `A-Z` mapped to values,
accepted only when the value is below the radix. -/
def toDigit (radix : Nat) (c : Char) : Option Nat :=
  let n := c.toNat
  let d? : Option Nat :=
    if 48 ≤ n ∧ n ≤ 57 then some (n - 48)
    else if 97 ≤ n ∧ n ≤ 122 then some (n - 97 + 10)
    else if 65 ≤ n ∧ n ≤ 90 then some (n - 65 + 10)
    else none
  match d? with
  | some d => if d < radix then some d else none
  | none => none

/-- Rust `char::is_digit(16)` (used by `parse_ip`'s scan). -/
def isHexDigitR (c : Char) : Bool := (toDigit 16 c).isSome

/-- The address-literal alphabet scanned by `parse_ip`:
`c == '.' || c == ':' || c.is_digit(16)` (negation of the `find` closure). -/
def isIpChar (c : Char) : Bool := c == '.' || c == ':' || isHexDigitR c

/-- Rust `char::is_whitespace` (Unicode `White_Space`), used by
`str::trim_start` and `str::split_whitespace`. -/
def isWs (c : Char) : Bool :=
  let n := c.toNat
  decide ((9 ≤ n ∧ n ≤ 13) ∨ n = 32 ∨ n = 0x85 ∨ n = 0xA0 ∨ n = 0x1680 ∨
    (0x2000 ≤ n ∧ n ≤ 0x200A) ∨ n = 0x2028 ∨ n = 0x2029 ∨
    n = 0x202F ∨ n = 0x205F ∨ n = 0x3000)

/-- Rust `str::trim_start`. -/
def trimStart (s : List Char) : List Char := s.dropWhile isWs

/-- `std::net::IpAddr`. IPv4 as four octets, IPv6 as its eight 16-bit
groups (the result of `read_ipv6_addr`). -/
inductive IpAddr where
  | v4 (a b c d : Nat)
  | v6 (groups : List Nat)
deriving DecidableEq, Repr

/-- Rust `Parser::read_number`'s digit loop: fold digits with
`checked_mul`/`checked_add` against the integer type's maximum `cap`;
overflow or more than `maxD` digits aborts the whole read (returns
`none`), a non-digit character stops the loop. Returns the value, the
digit count and the remaining input. -/
def readDigitsLoop (radix cap maxD : Nat) :
    List Char → Nat → Nat → Option (Nat × Nat × List Char)
  | [], result, count => some (result, count, [])
  | c :: cs, result, count =>
    match toDigit radix c with
    | none => some (result, count, c :: cs)
    | some d =>
      let r1 := result * radix
      if cap < r1 then none
      else
        let r2 := r1 + d
        if cap < r2 then none
        else if maxD < count + 1 then none
        else readDigitsLoop radix cap maxD cs r2 (count + 1)

/-- Rust `Parser::read_number(radix, Some maxD, allowZeroPrefix)` on an
integer type with maximum `cap`: at least one digit, and a leading `'0'`
with more than one digit is rejected unless `allowZeroPrefix`. -/
def readNumber (radix cap maxD : Nat) (allowZeroPrefix : Bool)
    (s : List Char) : Option (Nat × List Char) :=
  let hasLeadingZero := s.head? = some '0'
  match readDigitsLoop radix cap maxD s 0 0 with
  | none => none
  | some (r, count, rest) =>
    if count = 0 then none
    else if ¬allowZeroPrefix ∧ hasLeadingZero ∧ 1 < count then none
    else some (r, rest)

/-- A `'.'` followed by a `u8` decimal group (a `read_separator('.')`
step of `read_ipv4_addr`). -/
def readDotNumber (s : List Char) : Option (Nat × List Char) :=
  match s with
  | '.' :: s1 => readNumber 10 255 3 false s1
  | _ => none

/-- Rust `Parser::read_ipv4_addr`: four `u8` decimal groups separated by
`'.'`, no zero prefixes, at most three digits each. -/
def readIpv4 (s : List Char) : Option ((Nat × Nat × Nat × Nat) × List Char) := do
  let (a, s) ← readNumber 10 255 3 false s
  let (b, s) ← readDotNumber s
  let (c, s) ← readDotNumber s
  let (d, s) ← readDotNumber s
  some ((a, b, c, d), s)

/-- Rust `Parser::read_separator(':', i, inner)`: for `i > 0` a `':'`
must precede the inner read. -/
def readSepColon (i : Nat)
    (inner : List Char → Option (α × List Char))
    (s : List Char) : Option (α × List Char) :=
  if i = 0 then inner s
  else
    match s with
    | ':' :: s1 => inner s1
    | _ => none

/-- The `read_groups` helper of `read_ipv6_addr`. `remaining` slots are
left in the group array and `i` groups were already read; returns the
groups read, whether a trailing embedded IPv4 address was consumed, and
the remaining input. The embedded IPv4 branch is tried only when at
least two slots are left (`i < limit - 1`). -/
def readGroupsAux : Nat → Nat → List Char → List Nat → (List Nat × Bool × List Char)
  | 0, _, s, acc => (acc, false, s)
  | remaining + 1, i, s, acc =>
    match (if 1 ≤ remaining then readSepColon i readIpv4 s else none) with
    | some ((a, b, c, d), s1) =>
      (acc ++ [a * 256 + b, c * 256 + d], true, s1)
    | none =>
      match readSepColon i (readNumber 16 65535 4 true) s with
      | some (g, s1) => readGroupsAux remaining (i + 1) s1 (acc ++ [g])
      | none => (acc, false, s)

/-- Rust `Parser::read_ipv6_addr`: head groups, then an optional `::`
followed by tail groups (at most `8 - head - 1`), zeros in between. An
embedded IPv4 part is not allowed before the `::`. -/
def readIpv6 (s : List Char) : Option (List Nat × List Char) :=
  match readGroupsAux 8 0 s [] with
  | (head, headV4, s1) =>
    if head.length = 8 then some (head, s1)
    else if headV4 then none
    else
      match s1 with
      | ':' :: ':' :: s2 =>
        match readGroupsAux (8 - (head.length + 1)) 0 s2 [] with
        | (tail, _, s3) =>
          some (head ++ List.replicate (8 - head.length - tail.length) 0 ++ tail, s3)
      | _ => none

/-- Rust `Parser::read_ip_addr`: IPv4 first, else IPv6. -/
def readIpAddr (s : List Char) : Option (IpAddr × List Char) :=
  match readIpv4 s with
  | some ((a, b, c, d), s1) => some (.v4 a b c d, s1)
  | none =>
    match readIpv6 s with
    | some (g, s1) => some (.v6 g, s1)
    | none => none

/-- Rust `IpAddr::from_str` (`parse_with` requires all input consumed). -/
def ipFromStr (s : List Char) : Option IpAddr :=
  match readIpAddr s with
  | some (a, []) => some a
  | _ => none

/-- The single diagnostic `std::net::AddrParseError` carries for the
`IpAddr` kind (rendered "invalid IP address syntax"). -/
inductive AddrParseError where
  | invalidIpSyntax
deriving DecidableEq, Repr

/-- `parse_ip` (src/lib.rs:32): split the input at the first character
outside the address alphabet (whole input if none), parse the prefix as
an `IpAddr` and return it with the remainder. -/
def parse_ip (input : List Char) :
    Except AddrParseError (IpAddr × List Char) :=
  match ipFromStr (input.takeWhile isIpChar) with
  | some a => .ok (a, input.dropWhile isIpChar)
  | none => .error .invalidIpSyntax

/-- `HostEntry` (src/lib.rs:40): an address and its hostnames. -/
structure HostEntry where
  ip : IpAddr
  names : List (List Char)
deriving DecidableEq, Repr

/-- The distinct error messages `HostEntry::from_str` can produce
(its `Err` type is `String`; one constructor per `format!` site). -/
inductive EntryError where
  | invalidAddress (err : AddrParseError)
  | missingSeparator
deriving DecidableEq, Repr

/-- Rust `str::split_whitespace` via an accumulator of the current
(reversed) token: tokens are the maximal runs of non-whitespace. -/
def splitWsAux : List Char → List Char → List (List Char)
  | [], acc => if acc.isEmpty then [] else [acc.reverse]
  | c :: cs, acc =>
    if isWs c then
      if acc.isEmpty then splitWsAux cs []
      else acc.reverse :: splitWsAux cs []
    else splitWsAux cs (c :: acc)

/-- Rust `str::split_whitespace`. -/
def splitWhitespace (s : List Char) : List (List Char) := splitWsAux s []

/-- The hostname-collection loop of `from_str` (src/lib.rs:68-77): keep
tokens until one starts with `'#'` (trailing comment), discarding it and
the rest. An empty token hits the `unreachable!()` arm, modelled as
`none`. -/
def collectNames : List (List Char) → Option (List (List Char))
  | [] => some []
  | tok :: rest =>
    match tok.head? with
    | none => none
    | some c =>
      if c = '#' then some []
      else
        match collectNames rest with
        | some ns => some (tok :: ns)
        | none => none

/-- `HostEntry::from_str` (src/lib.rs:48), with the `unreachable!()`
panic modelled as `none`: trim leading whitespace, `parse_ip`, require a
space or tab right after the address, trim, collect hostnames. -/
def fromStr? (s : List Char) : Option (Except EntryError HostEntry) :=
  match parse_ip (trimStart s) with
  | .error err => some (.error (.invalidAddress err))
  | .ok (ip, rest) =>
    match rest.head? with
    | some c =>
      if c = ' ' ∨ c = '\t' then
        match collectNames (splitWhitespace (trimStart rest)) with
        | some names => some (.ok ⟨ip, names⟩)
        | none => none
      else some (.error .missingSeparator)
    | none => some (.error .missingSeparator)

/-- `HostEntry::from_str` as a total function (justified by
`from_str_total`: the `unreachable!()` arm is never taken). -/
def from_str (s : List Char) : Except EntryError HostEntry :=
  (fromStr? s).getD (.error .missingSeparator)

/-- The distinct error messages `parse_file` can produce (its `Err`
type is `String`; one constructor per `format!` site; the entry error
carries the failure reason, `line_count`, and the trimmed line). The
`BufRead` line-read error (src/lib.rs:104) cannot arise in this model,
where the file's lines are given. -/
inductive FileError where
  | notFoundOrNotAFile (path : List Char)
  | couldNotOpen (path : List Char)
  | entryError (err : EntryError) (line : Nat) (content : List Char)
deriving DecidableEq, Repr

/-- The line loop of `parse_file` (src/lib.rs:100-124): `line_count`
starts at 1; a line is trimmed, skipped when empty or starting `'#'`
(note: `continue` skips the `line_count += 1`), otherwise parsed;
the first failure aborts with a composite error; `line_count += 1` runs
only after a successful parse. -/
def parseLines : List (List Char) → Nat → Except FileError (List HostEntry)
  | [], _ => .ok []
  | l :: ls, c =>
    let t := trimStart l
    match t.head? with
    | none => parseLines ls c
    | some ch =>
      if ch = '#' then parseLines ls c
      else
        match from_str t with
        | .ok e =>
          match parseLines ls (c + 1) with
          | .ok es => .ok (e :: es)
          | .error err => .error err
        | .error err => .error (.entryError err c t)

/-- The filesystem facts `parse_file` consults about its path, plus the
lines the file holds when it can be read. -/
structure FsFile where
  path : List Char
  pathExists : Bool
  isRegularFile : Bool
  openSucceeds : Bool
  lines : List (List Char)

/-- `parse_file` (src/lib.rs:84): a combined existence/regular-file
check before opening, then the open, then the line loop from count 1. -/
def parse_file (f : FsFile) : Except FileError (List HostEntry) :=
  if ¬(f.pathExists && f.isRegularFile) then
    .error (.notFoundOrNotAFile f.path)
  else if ¬f.openSucceeds then .error (.couldNotOpen f.path)
  else parseLines f.lines 1

/-- Whether the line loop skips a line: its trimmed form is empty or
starts with `'#'`. -/
def skipLine (l : List Char) : Bool :=
  match (trimStart l).head? with
  | none => true
  | some c => c == '#'

/-- The entries of the lines that are not skipped and parse
successfully, in file order. -/
def lineEntries (lines : List (List Char)) : List HostEntry :=
  lines.filterMap fun l =>
    if skipLine l then none else (from_str l).toOption

/-- The candidate address token of a line: after trimming, the maximal
prefix over the address alphabet (what `parse_ip` hands to
`IpAddr::from_str`). -/
def addrTok (s : List Char) : List Char := (trimStart s).takeWhile isIpChar

/-- The remainder of a line after its candidate address token (what
`parse_ip` returns alongside the address). -/
def afterTok (s : List Char) : List Char := (trimStart s).dropWhile isIpChar

/-- Whether a token begins with `'#'` (a trailing comment marker). -/
def startsHash (t : List Char) : Bool := t.head? == some '#'

/-- The hostnames `from_str` extracts from a line: the
whitespace-separated tokens after the address, up to the first one
beginning with `'#'`. -/
def namesOf (s : List Char) : List (List Char) :=
  (splitWhitespace (trimStart (afterTok s))).takeWhile fun t => !startsHash t

/-- Whether an `Except` is `ok` (decidable stand-in for success). -/
def isOkE : Except ε α → Bool
  | .ok _ => true
  | .error _ => false

end Hostfile

namespace Hostfile

example : ipFromStr (str "127.0.0.1") = some (.v4 127 0 0 1) := by decide
example : ipFromStr (str "::1") = some (.v6 [0, 0, 0, 0, 0, 0, 0, 1]) := by decide
example : ipFromStr (str "255.255.255.255") = some (.v4 255 255 255 255) := by decide
example : ipFromStr (str "bad:dad::ded") =
    some (.v6 [0xbad, 0xdad, 0, 0, 0, 0, 0, 0xded]) := by decide
example : ipFromStr (str "127.0.0") = none := by decide
example : ipFromStr (str "127.0.0.01") = none := by decide
example : ipFromStr (str "256.0.0.1") = none := by decide
example : ipFromStr (str "::") = some (.v6 [0, 0, 0, 0, 0, 0, 0, 0]) := by decide
example : ipFromStr (str "1:2:3:4:5:6:7:8") =
    some (.v6 [1, 2, 3, 4, 5, 6, 7, 8]) := by decide
example : ipFromStr (str "::ffff:1.2.3.4") =
    some (.v6 [0, 0, 0, 0, 0, 0xffff, 0x0102, 0x0304]) := by decide
example : ipFromStr (str "1.2.3.4.5") = none := by decide
example : ipFromStr (str "") = none := by decide
example : ipFromStr (str "1:2:3:4:5:6:7:8:9") = none := by decide
example : ipFromStr (str "1::2::3") = none := by decide

-- `parse_entry` tests of src/lib.rs
example : from_str (str "127.0.0.1 localhost") =
    .ok ⟨.v4 127 0 0 1, [str "localhost"]⟩ := by decide
example : from_str (str "127.0.0.1 localhost home  ") =
    .ok ⟨.v4 127 0 0 1, [str "localhost", str "home"]⟩ := by decide
example : from_str (str "::1 localhost") =
    .ok ⟨.v6 [0, 0, 0, 0, 0, 0, 0, 1], [str "localhost"]⟩ := by decide
example : from_str (str "    ::1 \tlocalhost # comment") =
    .ok ⟨.v6 [0, 0, 0, 0, 0, 0, 0, 1], [str "localhost"]⟩ := by decide
example : from_str (str "127.0.0.1localhost") =
    .error .missingSeparator := by decide
example : from_str (str "127.0.0 localhost") =
    .error (.invalidAddress .invalidIpSyntax) := by decide

-- the line loop on the no-skipped-lines error tests of src/lib.rs
example : parseLines [str "127.0.0.1 localhost", str "localhost myhost"] 1 =
    .error (.entryError (.invalidAddress .invalidIpSyntax) 2
      (str "localhost myhost")) := by decide
example :
    parseLines [str "# a comment", str "1.1.1.1\tname", str "", str "::1 x y"] 1 =
    .ok [⟨.v4 1 1 1 1, [str "name"]⟩,
         ⟨.v6 [0, 0, 0, 0, 0, 0, 0, 1], [str "x", str "y"]⟩] := by decide

/-! ## Helper lemmas -/

/-- Every token `split_whitespace` produces is non-empty. -/
theorem splitWsAux_ne_nil (s : List Char) :
    ∀ acc t, t ∈ splitWsAux s acc → t ≠ [] := by
  induction s with
  | nil =>
    intro acc t ht
    unfold splitWsAux at ht
    by_cases ha : acc.isEmpty
    · simp [ha] at ht
    · simp [ha] at ht
      subst ht
      simp only [ne_eq, List.reverse_eq_nil_iff]
      intro hnil
      rw [hnil] at ha
      exact ha rfl
  | cons c cs ih =>
    intro acc t ht
    unfold splitWsAux at ht
    by_cases hw : isWs c
    · simp only [hw, if_true] at ht
      by_cases ha : acc.isEmpty
      · simp only [ha, if_true] at ht
        exact ih [] t ht
      · simp only [ha, if_false] at ht
        rcases List.mem_cons.mp ht with rfl | hmem
        · simp only [ne_eq, List.reverse_eq_nil_iff]
          intro hnil
          rw [hnil] at ha
          exact ha rfl
        · exact ih [] t hmem
    · simp only [hw, if_false] at ht
      exact ih (c :: acc) t ht

/-- Every token of `splitWhitespace` is non-empty (so the
`unreachable!()` arm of the hostname loop can never fire). -/
theorem splitWhitespace_ne_nil (s : List Char) :
    ∀ t ∈ splitWhitespace s, t ≠ [] :=
  fun t ht => splitWsAux_ne_nil s [] t ht

/-- On non-empty tokens, the hostname loop returns exactly the tokens up
to the first one starting with `'#'`. -/
theorem collectNames_eq (toks : List (List Char))
    (h : ∀ t ∈ toks, t ≠ []) :
    collectNames toks = some (toks.takeWhile fun t => !startsHash t) := by
  induction toks with
  | nil => rfl
  | cons tok rest ih =>
    have htok : tok ≠ [] := h tok (List.mem_cons_self tok rest)
    cases tok with
    | nil => exact absurd rfl htok
    | cons c cs =>
      by_cases hc : c = '#'
      · subst hc
        simp [collectNames, startsHash, List.takeWhile_cons]
      · have ih' := ih fun t ht => h t (List.mem_cons_of_mem _ ht)
        unfold collectNames
        rw [ih']
        simp [startsHash, List.takeWhile_cons, hc]

/-- `from_str`'s `unreachable!()` arm is never taken: the partial model
always returns an answer. -/
theorem fromStr?_total (s : List Char) : ∃ r, fromStr? s = some r := by
  unfold fromStr? parse_ip
  split
  · exact ⟨_, rfl⟩
  · split
    · split
      · rw [collectNames_eq _ (splitWhitespace_ne_nil _)]
        exact ⟨_, rfl⟩
      · exact ⟨_, rfl⟩
    · exact ⟨_, rfl⟩

/-- The partial model agrees with the totalized `from_str`. -/
theorem fromStr?_eq_some (s : List Char) : fromStr? s = some (from_str s) := by
  obtain ⟨r, hr⟩ := fromStr?_total s
  simp [from_str, hr]

/-- Closed form of `from_str`: address lookup, separator check, then the
hostname tokens up to a trailing comment. -/
theorem from_str_eq (s : List Char) :
    from_str s =
      match ipFromStr (addrTok s) with
      | none => .error (.invalidAddress .invalidIpSyntax)
      | some a =>
        match (afterTok s).head? with
        | some c =>
          if c = ' ' ∨ c = '\t' then .ok ⟨a, namesOf s⟩
          else .error .missingSeparator
        | none => .error .missingSeparator := by
  cases hip : ipFromStr (addrTok s) with
  | none =>
    unfold addrTok at hip
    simp [from_str, fromStr?, parse_ip, hip]
  | some a =>
    unfold addrTok at hip
    cases hh : (afterTok s).head? with
    | none =>
      unfold afterTok at hh
      simp [from_str, fromStr?, parse_ip, hip, hh]
    | some c =>
      unfold afterTok at hh
      have hcn := collectNames_eq
        (splitWhitespace (trimStart (List.dropWhile isIpChar (trimStart s))))
        (splitWhitespace_ne_nil _)
      by_cases hc : c = ' ' ∨ c = '\t'
      · simp [from_str, fromStr?, parse_ip, hip, hh, hc, hcn, namesOf, afterTok]
      · simp [from_str, fromStr?, parse_ip, hip, hh, hc]

/-- `dropWhile` is idempotent. -/
theorem dropWhile_dropWhile (p : α → Bool) (l : List α) :
    (l.dropWhile p).dropWhile p = l.dropWhile p := by
  induction l with
  | nil => rfl
  | cons a l ih =>
    by_cases h : p a
    · simp [List.dropWhile_cons, h, ih]
    · simp [List.dropWhile_cons, h]

/-- Trimming is idempotent. -/
theorem trimStart_trimStart (l : List Char) :
    trimStart (trimStart l) = trimStart l :=
  dropWhile_dropWhile isWs l

/-- `from_str` only depends on the trimmed line (the code trims first). -/
theorem from_str_trimStart (l : List Char) :
    from_str (trimStart l) = from_str l := by
  unfold from_str fromStr?
  rw [trimStart_trimStart]

/-- A prefix satisfying the predicate is dropped whole. -/
theorem dropWhile_append_all (p : α → Bool) (w s : List α)
    (h : ∀ c ∈ w, p c = true) :
    (w ++ s).dropWhile p = s.dropWhile p := by
  induction w with
  | nil => rfl
  | cons a w ih =>
    have ha : p a = true := h a (List.mem_cons_self a w)
    simp only [List.cons_append, List.dropWhile_cons, ha, if_true]
    exact ih fun c hc => h c (List.mem_cons_of_mem _ hc)

/-- One step of the line loop, phrased with `skipLine` and the
untrimmed line. -/
theorem parseLines_cons (l : List Char) (ls : List (List Char)) (c : Nat) :
    parseLines (l :: ls) c =
      if skipLine l then parseLines ls c
      else
        match from_str l with
        | .ok e =>
          match parseLines ls (c + 1) with
          | .ok es => .ok (e :: es)
          | .error err => .error err
        | .error err => .error (.entryError err c (trimStart l)) := by
  rw [← from_str_trimStart l]
  cases hh : (trimStart l).head? with
  | none => simp [parseLines, skipLine, hh]
  | some ch =>
    by_cases hch : ch = '#'
    · simp [parseLines, skipLine, hh, hch]
    · simp [parseLines, skipLine, hh, hch]

/-- `from_str` when the address token is not a valid literal. -/
theorem from_str_of_ip_none (s : List Char)
    (hip : ipFromStr (addrTok s) = none) :
    from_str s = .error (.invalidAddress .invalidIpSyntax) := by
  have heq := from_str_eq s
  rw [hip] at heq
  exact heq

/-- `from_str` when the address parses and a space/tab follows. -/
theorem from_str_of_sep_ok (s : List Char) (a : IpAddr) (c : Char)
    (hip : ipFromStr (addrTok s) = some a)
    (hh : (afterTok s).head? = some c) (hc : c = ' ' ∨ c = '\t') :
    from_str s = .ok ⟨a, namesOf s⟩ := by
  have heq := from_str_eq s
  rw [hip, hh] at heq
  simp only at heq
  rw [if_pos hc] at heq
  exact heq

/-- `from_str` when the address parses but the line ends right after. -/
theorem from_str_of_eol (s : List Char) (a : IpAddr)
    (hip : ipFromStr (addrTok s) = some a)
    (hh : (afterTok s).head? = none) :
    from_str s = .error .missingSeparator := by
  have heq := from_str_eq s
  rw [hip, hh] at heq
  exact heq

/-- `from_str` when the address parses but a non-space/tab character
follows. -/
theorem from_str_of_bad_sep (s : List Char) (a : IpAddr) (c : Char)
    (hip : ipFromStr (addrTok s) = some a)
    (hh : (afterTok s).head? = some c) (hc : ¬(c = ' ' ∨ c = '\t')) :
    from_str s = .error .missingSeparator := by
  have heq := from_str_eq s
  rw [hip, hh] at heq
  simp only at heq
  rw [if_neg hc] at heq
  exact heq

/-! ## Claims -/

/-- C1: the line counter does NOT advance on skipped comment/blank
lines (`continue` jumps over `line_count += 1`, which only runs after a
successful entry parse). On a file whose line 1 is a comment and whose
line 2 is malformed, the error cites line 1, not the actual line 2: the
claim's example fails on the code. -/
theorem c1_line_counter_stuck_on_comment :
    parse_file ⟨str "/etc/hosts", true, true, true,
        [str "# a comment", str "zzz bad"]⟩ =
      .error (.entryError (.invalidAddress .invalidIpSyntax) 1
        (str "zzz bad")) := by decide

/-- C2: a line with a valid address, the required separator, and only a
comment token after it is ACCEPTED by `from_str` with an empty `names`
list; it does not fail (there is no `MissingHostname` outcome in the
code), contradicting the claim and the grammar in the crate's own doc
comment (`Entry: ws* ip ws+ Name ...`). -/
theorem c2_empty_names_accepted :
    from_str (str "1.1.1.1 #comment") =
      .ok ⟨.v4 1 1 1 1, []⟩ := by decide

/-- C9 counterexample: a nonexistent path and an existing
non-regular-file path produce the very same error value (the code has a
single combined check and one format string), so there are no distinct
`NotFound` / `NotAFile` error kinds. -/
theorem c9_counterexample :
    parse_file ⟨str "/tmp/p", false, false, true, []⟩ =
        .error (.notFoundOrNotAFile (str "/tmp/p")) ∧
      parse_file ⟨str "/tmp/p", true, false, true, []⟩ =
        .error (.notFoundOrNotAFile (str "/tmp/p")) := by decide

/-- C9 (amended): when the path does not exist or is not a regular
file, `parse_file` fails before opening with the single combined
error naming the path ("does not exist or is not a regular file"),
the same error in both cases, regardless of whether an open would
succeed or what the file holds. -/
theorem c9_precheck_combined_error (f : FsFile)
    (h : f.pathExists = false ∨ f.isRegularFile = false) :
    parse_file f = .error (.notFoundOrNotAFile f.path) := by
  unfold parse_file
  rcases h with h | h <;> simp [h]

/-- C9 witness: the amended theorem applied to a directory-like path. -/
theorem c9_precheck_combined_error_witness :
    parse_file ⟨str "/etc", true, false, true, []⟩ =
      .error (.notFoundOrNotAFile (str "/etc")) :=
  c9_precheck_combined_error ⟨str "/etc", true, false, true, []⟩ (Or.inr rfl)

/-- C10: `from_str` is total — for every input the model returns an
answer (`Ok` or `Err`); the `unreachable!()` arm of the hostname loop,
modelled as `none`, is never reached because whitespace splitting
yields only non-empty tokens. -/
theorem c10_from_str_total (s : List Char) : ∃ r, fromStr? s = some r :=
  ⟨from_str s, fromStr?_eq_some s⟩

/-- C4: `from_str` trims leading whitespace and takes as candidate
address token the maximal prefix over {hex digits, '.', ':'}
(`addrTok`); it fails with `InvalidAddress` if and only if that token
is not a valid IPv4/IPv6 literal, and on success the entry's address is
the parsed literal. -/
theorem c4_address_token_parse (s : List Char) :
    ((∃ d, from_str s = .error (.invalidAddress d)) ↔
        ipFromStr (addrTok s) = none) ∧
      (∀ e : HostEntry, from_str s = .ok e →
        ipFromStr (addrTok s) = some e.ip) := by
  cases hip : ipFromStr (addrTok s) with
  | none =>
    refine ⟨⟨fun _ => rfl, fun _ => ⟨.invalidIpSyntax, from_str_of_ip_none s hip⟩⟩,
      fun e he => ?_⟩
    rw [from_str_of_ip_none s hip] at he
    cases he
  | some a =>
    constructor
    · refine ⟨fun ⟨d, hd⟩ => ?_, fun hnone => by cases hnone⟩
      cases hh : (afterTok s).head? with
      | none => rw [from_str_of_eol s a hip hh] at hd; cases hd
      | some c =>
        by_cases hc : c = ' ' ∨ c = '\t'
        · rw [from_str_of_sep_ok s a c hip hh hc] at hd; cases hd
        · rw [from_str_of_bad_sep s a c hip hh hc] at hd; cases hd
    · intro e he
      cases hh : (afterTok s).head? with
      | none => rw [from_str_of_eol s a hip hh] at he; cases he
      | some c =>
        by_cases hc : c = ' ' ∨ c = '\t'
        · rw [from_str_of_sep_ok s a c hip hh hc] at he
          cases he
          rfl
        · rw [from_str_of_bad_sep s a c hip hh hc] at he; cases he

/-- C4 witness: the theorem applied to "127.0.0.1 localhost", whose
parse succeeds with address 127.0.0.1. -/
theorem c4_address_token_parse_witness :
    ipFromStr (addrTok (str "127.0.0.1 localhost")) =
      some (HostEntry.mk (.v4 127 0 0 1) [str "localhost"]).ip :=
  (c4_address_token_parse (str "127.0.0.1 localhost")).2
    ⟨.v4 127 0 0 1, [str "localhost"]⟩ (by decide)

/-- C5: when the candidate address token parses but the character right
after it is not a space or a tab (or the line ends there), `from_str`
fails with `MissingSeparator`. -/
theorem c5_missing_separator (s : List Char) (a : IpAddr)
    (h1 : ipFromStr (addrTok s) = some a)
    (h2 : ((afterTok s).head?.all fun c => !(c == ' ' || c == '\t')) = true) :
    from_str s = .error .missingSeparator := by
  cases hh : (afterTok s).head? with
  | none => exact from_str_of_eol s a h1 hh
  | some c =>
    rw [hh] at h2
    simp only [Option.all_some, Bool.not_eq_eq_eq_not, Bool.not_true,
      Bool.or_eq_false_iff, beq_eq_false_iff_ne, ne_eq] at h2
    exact from_str_of_bad_sep s a c h1 hh (by rintro (rfl | rfl) <;> simp at h2)

/-- C5 witness: the theorem applied to "127.0.0.1localhost". -/
theorem c5_missing_separator_witness :
    from_str (str "127.0.0.1localhost") = .error .missingSeparator :=
  c5_missing_separator (str "127.0.0.1localhost") (.v4 127 0 0 1)
    (by decide) (by decide)

/-- C7: on success, `names` is exactly the list of whitespace-separated
tokens after the address, in order, truncated at the first token that
begins with '#'. -/
theorem c7_names_collection (s : List Char) (e : HostEntry)
    (h : from_str s = .ok e) : e.names = namesOf s := by
  cases hip : ipFromStr (addrTok s) with
  | none => rw [from_str_of_ip_none s hip] at h; cases h
  | some a =>
    cases hh : (afterTok s).head? with
    | none => rw [from_str_of_eol s a hip hh] at h; cases h
    | some c =>
      by_cases hc : c = ' ' ∨ c = '\t'
      · rw [from_str_of_sep_ok s a c hip hh hc] at h
        cases h
        rfl
      · rw [from_str_of_bad_sep s a c hip hh hc] at h; cases h

/-- C7 witness: the theorem applied to "::1 localhost # note": the
trailing comment token and everything after it are discarded. -/
theorem c7_names_collection_witness :
    (HostEntry.mk (.v6 [0, 0, 0, 0, 0, 0, 0, 1]) [str "localhost"]).names =
      namesOf (str "::1 localhost # note") :=
  c7_names_collection (str "::1 localhost # note")
    ⟨.v6 [0, 0, 0, 0, 0, 0, 0, 1], [str "localhost"]⟩ (by decide)

/-- C8: leading spaces and tabs before the address, in any mix and
amount, do not affect the result of `from_str`. -/
theorem c8_leading_whitespace (s w : List Char)
    (h : ∀ c ∈ w, c = ' ' ∨ c = '\t') :
    from_str (w ++ s) = from_str s := by
  have ht : trimStart (w ++ s) = trimStart s := by
    apply dropWhile_append_all
    intro c hc
    rcases h c hc with rfl | rfl <;> decide
  unfold from_str fromStr?
  rw [ht]

/-- C8 witness: the theorem applied to a mixed space/tab prefix of
"1.1.1.1 host". -/
theorem c8_leading_whitespace_witness :
    from_str (str " \t " ++ str "1.1.1.1 host") =
      from_str (str "1.1.1.1 host") :=
  c8_leading_whitespace (str "1.1.1.1 host") (str " \t ") (by decide)

/-- C3: the line loop is all-or-nothing. If any non-skipped line fails
the entry parser, `parseLines` returns a composite error (reason, line
number, trimmed content) and no entries at all. -/
theorem c3_all_or_nothing (lines : List (List Char)) (c : Nat)
    (h : ∃ l ∈ lines, skipLine l = false ∧ ∃ err, from_str l = .error err) :
    ∃ err n t, parseLines lines c = .error (.entryError err n t) := by
  induction lines generalizing c with
  | nil => simp at h
  | cons l ls ih =>
    rw [parseLines_cons]
    by_cases hs : skipLine l = true
    · rw [if_pos hs]
      obtain ⟨l0, hl0, hsk0, herr0⟩ := h
      rcases List.mem_cons.mp hl0 with rfl | hmem
      · rw [hs] at hsk0; cases hsk0
      · exact ih c ⟨l0, hmem, hsk0, herr0⟩
    · rw [if_neg hs]
      cases hf : from_str l with
      | error err => exact ⟨err, c, trimStart l, rfl⟩
      | ok e =>
        obtain ⟨l0, hl0, hsk0, err0, herr0⟩ := h
        rcases List.mem_cons.mp hl0 with rfl | hmem
        · rw [hf] at herr0; cases herr0
        · obtain ⟨err, n, t, hp⟩ := ih (c + 1) ⟨l0, hmem, hsk0, err0, herr0⟩
          refine ⟨err, n, t, ?_⟩
          simp only [hp]

/-- C3 witness: a file with a comment, a valid entry and a malformed
line yields a composite entry error and no entries. -/
theorem c3_all_or_nothing_witness :
    ∃ err n t,
      parseLines [str "# lead", str "127.0.0.1 ok", str "!!"] 1 =
        .error (.entryError err n t) :=
  c3_all_or_nothing [str "# lead", str "127.0.0.1 ok", str "!!"] 1
    ⟨str "!!", by decide, by decide, .invalidAddress .invalidIpSyntax, by decide⟩

/-- C6: on a mix of comment lines, blank lines and valid entry lines,
the line loop returns exactly the entries of the valid lines, in file
order; skipped lines contribute nothing. -/
theorem c6_mixed_lines (lines : List (List Char)) (c : Nat)
    (h : ∀ l ∈ lines, skipLine l = false → isOkE (from_str l) = true) :
    parseLines lines c = .ok (lineEntries lines) := by
  induction lines generalizing c with
  | nil => rfl
  | cons l ls ih =>
    rw [parseLines_cons]
    have htail : ∀ l0 ∈ ls, skipLine l0 = false → isOkE (from_str l0) = true :=
      fun l0 h0 => h l0 (List.mem_cons_of_mem _ h0)
    by_cases hs : skipLine l = true
    · rw [if_pos hs, ih c htail]
      simp [lineEntries, hs]
    · have hsf : skipLine l = false := by simpa using hs
      have hok := h l (List.mem_cons_self l ls) hsf
      cases hf : from_str l with
      | error err => rw [hf] at hok; cases hok
      | ok e =>
        rw [if_neg hs]
        simp only [ih (c + 1) htail]
        simp [lineEntries, List.filterMap_cons, hsf, hf, Except.toOption]

/-- C6 witness: the theorem applied to a concrete mix of comments,
blanks and valid entries. -/
theorem c6_mixed_lines_witness :
    parseLines
        [str "# c", str "  ", str "127.0.0.1 localhost", str "", str "::1 h"] 1 =
      .ok (lineEntries
        [str "# c", str "  ", str "127.0.0.1 localhost", str "", str "::1 h"]) :=
  c6_mixed_lines
    [str "# c", str "  ", str "127.0.0.1 localhost", str "", str "::1 h"] 1
    (by decide)

end Hostfile
